import Mathlib

/-!
Shallow embedding of the chunked audio transcription pipeline implemented in
`long_audio_transcriber.py` (class `ChunkedAudioTranscriber`), together with
proofs about its splitting, per-chunk worker, merging and cleanup behaviour.

Durations and timestamps are modelled as natural numbers (milliseconds for
audio offsets, abstract time units for processing times); transcripts are
Lean `String`s; Python dictionaries whose keys differ between return paths
are modelled as structures with `Option` fields (`none` = key absent).
-/

/-- A chunk produced by `split_audio`: payload path plus the absolute
millisecond window `[start_ms, end_ms)` it covers in the source audio. -/
structure Chunk where
  path : String
  start_ms : Nat
  end_ms : Nat
deriving DecidableEq, Repr

/-- The per-chunk result dictionary built by `transcribe_chunk`.
`processing_time` and `word_count` are `Option` because some return paths of
the Python code omit those keys (the FAILED-state return has neither; the
failure returns have no `word_count`). -/
structure ChunkResult where
  success : Bool
  error : Option String
  transcript : String
  start_time : Nat
  end_time : Nat
  processing_time : Option Nat
  word_count : Option Nat
deriving DecidableEq, Repr

/-- The dictionary returned by `merge_transcriptions`.  The all-failure early
return omits every aggregate key, hence the `Option` fields. -/
structure MergeReport where
  success : Bool
  error : Option String
  transcript : String
  total_chunks : Option Nat
  successful_chunks : Option Nat
  failed_chunks : Option Nat
  total_words : Option Nat
  total_processing_time : Option Nat
  chunk_results : List ChunkResult
deriving DecidableEq, Repr

/-- Whitespace characters recognised by Python's `str.strip()` / `str.split()`
(restricted to the ones that can occur in the modelled strings). -/
def isPyWS (c : Char) : Bool :=
  c = ' ' || c = '\n' || c = '\t' || c = '\r'

/-- Python `s.strip()`: drop leading and trailing whitespace. -/
def pyStrip (s : String) : String :=
  String.mk (((s.data.dropWhile isPyWS).reverse.dropWhile isPyWS).reverse)

/-- Python `len(s.split())`: number of maximal non-whitespace runs. -/
def pyWords (s : String) : Nat :=
  ((s.split isPyWS).filter (fun w => w != "")).length

/-- One left-to-right, non-overlapping pass of Python's
`s.replace('\n\n\n', '\n\n')` over the character list: each matched triple
newline is emitted as a double newline and scanning resumes after the match. -/
def replTriple : List Char → List Char
  | c1 :: c2 :: c3 :: rest =>
    if c1 = '\n' ∧ c2 = '\n' ∧ c3 = '\n' then
      '\n' :: '\n' :: replTriple rest
    else
      c1 :: replTriple (c2 :: c3 :: rest)
  | [c1, c2] => [c1, c2]
  | [c1] => [c1]
  | [] => []

/-- String wrapper for `replTriple`: the `full_transcript.replace('\n\n\n',
'\n\n')` step of `merge_transcriptions`. -/
def collapseTriples (s : String) : String :=
  String.mk (replTriple s.data)

/-- Python `'\n\n'.join(parts)`. -/
def joinDouble : List String → String
  | [] => ""
  | [p] => p
  | p :: ps => p ++ "\n\n" ++ joinDouble ps

/-- `True` iff the character list contains three consecutive newline
characters, i.e. a run of 3 or more line breaks. -/
def hasTripleNL : List Char → Bool
  | c1 :: c2 :: c3 :: rest =>
    (c1 = '\n' && c2 = '\n' && c3 = '\n') || hasTripleNL (c2 :: c3 :: rest)
  | _ => false

/-- `ChunkedAudioTranscriber.merge_transcriptions` (lines 172-211): partition
the input into successful and failed results; with no success return the
all-failure record (which omits every aggregate key); otherwise join the
successful transcripts in input-list order with a double newline, apply the
single triple-newline replacement pass, and aggregate word counts and
processing times of the successful results (missing keys default to 0, as
`dict.get(key, 0)` does). -/
def merge_transcriptions (chunk_results : List ChunkResult) : MergeReport :=
  let successful := chunk_results.filter (fun r => r.success)
  let failed := chunk_results.filter (fun r => !r.success)
  if successful.isEmpty then
    { success := false
      error := some "All chunks failed to transcribe"
      transcript := ""
      total_chunks := none
      successful_chunks := none
      failed_chunks := none
      total_words := none
      total_processing_time := none
      chunk_results := chunk_results }
  else
    let full_transcript_parts := successful.map (fun r => r.transcript)
    let total_words := successful.foldl (fun acc r => acc + r.word_count.getD 0) 0
    let total_time := successful.foldl (fun acc r => acc + r.processing_time.getD 0) 0
    let full_transcript := collapseTriples (joinDouble full_transcript_parts)
    { success := true
      error := none
      transcript := full_transcript
      total_chunks := some chunk_results.length
      successful_chunks := some successful.length
      failed_chunks := some failed.length
      total_words := some total_words
      total_processing_time := some total_time
      chunk_results := chunk_results }

/-- The observable behaviour of the remote service (and of the cleanup call)
for one chunk, abstracting the Gemini SDK: which step of the `try` block in
`transcribe_chunk` raises or what terminal state/response is reached.
`response text elapsed` means upload, polling, generation and `delete_file`
all completed and `response.text` was `text` (possibly empty) after `elapsed`
time units of work. -/
inductive RemoteBehavior where
  | uploadError (msg : String)
  | failedState
  | generateError (msg : String)
  | deleteError (msg : String)
  | response (text : String) (elapsed : Nat)
deriving DecidableEq, Repr

/-- The body of the `try` block of `transcribe_chunk` (lines 89-160): an
`Except.error` models a raised exception, `Except.ok` a `return` executed
inside the `try`.  The second component records whether `genai.delete_file`
(line 132) was invoked: it is reached only after generation completed, so the
FAILED-state early return and exceptions during upload/polling/generation
skip it. -/
def transcribeChunkBody (b : RemoteBehavior) (c : Chunk) (chunk_index : Nat) :
    Except String ChunkResult × Bool :=
  match b with
  | .uploadError msg => (Except.error msg, false)
  | .failedState =>
    (Except.ok
      { success := false
        error := some ("Chunk " ++ toString (chunk_index + 1) ++ " processing failed")
        transcript := ""
        start_time := c.start_ms
        end_time := c.end_ms
        processing_time := none
        word_count := none }, false)
  | .generateError msg => (Except.error msg, false)
  | .deleteError msg => (Except.error msg, true)
  | .response text elapsed =>
    if text = "" then
      (Except.ok
        { success := false
          error := some ("No transcription generated for chunk " ++ toString (chunk_index + 1))
          transcript := ""
          start_time := c.start_ms
          end_time := c.end_ms
          processing_time := some elapsed
          word_count := none }, true)
    else
      let transcript := pyStrip text
      (Except.ok
        { success := true
          error := none
          transcript := transcript
          start_time := c.start_ms
          end_time := c.end_ms
          processing_time := some elapsed
          word_count := some (pyWords transcript) }, true)

/-- `ChunkedAudioTranscriber.transcribe_chunk` (lines 79-170): run the `try`
body; the `except Exception` handler (lines 162-170) converts any raised
exception into a failure `ChunkResult` with `processing_time` 0.  The `Bool`
component reports whether the uploaded remote file was deleted. -/
def transcribe_chunk (b : RemoteBehavior) (c : Chunk) (chunk_index : Nat) :
    ChunkResult × Bool :=
  match transcribeChunkBody b c chunk_index with
  | (Except.ok r, d) => (r, d)
  | (Except.error e, d) =>
    ({ success := false
       error := some ("Chunk " ++ toString (chunk_index + 1) ++ " error: " ++ e)
       transcript := ""
       start_time := c.start_ms
       end_time := c.end_ms
       processing_time := some 0
       word_count := none }, d)

/-- The chunking loop of `split_audio` (lines 58-74): starting at
`chunk_start`, emit windows of length `C` (the last truncated to `D`) with
payloads `chunk_<n>.mp3` inside the temporary directory.  The Python loop
terminates only for `0 < C`; the guard makes the recursion well-founded. -/
def splitLoop (C D : Nat) (tempDir : String) (chunk_start chunk_number : Nat) :
    List Chunk :=
  if h : 0 < C ∧ chunk_start < D then
    { path := tempDir ++ "/chunk_" ++ toString chunk_number ++ ".mp3"
      start_ms := chunk_start
      end_ms := min (chunk_start + C) D }
      :: splitLoop C D tempDir (min (chunk_start + C) D) (chunk_number + 1)
  else []
termination_by D - chunk_start
decreasing_by omega

/-- `ChunkedAudioTranscriber.split_audio` (lines 33-77) for a source of
duration `D` ms and chunk length `C` ms: a source no longer than one chunk is
returned as a single chunk whose payload is the original file path (no temp
file); otherwise the chunking loop materialises temp-file chunks. -/
def split_audio (C : Nat) (audio_file_path tempDir : String) (D : Nat) :
    List Chunk :=
  if D ≤ C then [{ path := audio_file_path, start_ms := 0, end_ms := D }]
  else splitLoop C D tempDir 0 1

/-- The sequential chunk loop of `transcribe_long_audio` (lines 236-246):
process the chunks strictly in order, appending each result; `bs i` is the
remote behaviour observed for chunk index `i`. -/
def runChunks (bs : Nat → RemoteBehavior) : Nat → List Chunk → List ChunkResult
  | _, [] => []
  | i, c :: rest => (transcribe_chunk (bs i) c i).1 :: runChunks bs (i + 1) rest

/-- `ChunkedAudioTranscriber.transcribe_long_audio` (lines 213-264) after a
successful split: run every chunk sequentially, compute the list of local
chunk payloads the post-run cleanup deletes (lines 248-258: every chunk path
different from the original file), merge, and overwrite
`total_processing_time` with the orchestrator wall-clock time (line 262).
Returns the final report together with the deleted payload paths. -/
def transcribe_long_audio (bs : Nat → RemoteBehavior)
    (audio_file_path tempDir : String) (C D wallClock : Nat) :
    MergeReport × List String :=
  let chunks := split_audio C audio_file_path tempDir D
  let chunk_results := runChunks bs 0 chunks
  let deleted := (chunks.filter (fun c => c.path != audio_file_path)).map (fun c => c.path)
  let final_result := merge_transcriptions chunk_results
  ({ final_result with total_processing_time := some wallClock }, deleted)

/-- Contiguity check: the chunk list starts exactly at `s` and each chunk
starts where the previous one ended. -/
def contiguousFrom : Nat → List Chunk → Bool
  | _, [] => true
  | s, c :: rest => (c.start_ms == s) && contiguousFrom c.end_ms rest

/-- End of the last window of the chunk list, `s` if the list is empty. -/
def lastEnd : Nat → List Chunk → Nat
  | s, [] => s
  | _, c :: rest => lastEnd c.end_ms rest

/-- The `ChunkResult` invariant stated in the data model: a failure carries an
empty transcript and a non-empty error message; a success carries no error. -/
def resultInvariant (r : ChunkResult) : Bool :=
  if r.success then r.error.isNone
  else r.transcript == "" && r.error.getD "" != ""

/-! Helper lemmas. -/

/-- Splitting a list by a Boolean predicate partitions its length. -/
lemma length_filter_add_length_filter_not (rs : List ChunkResult) (p : ChunkResult → Bool) :
    (rs.filter p).length + (rs.filter (fun r => !p r)).length = rs.length := by
  induction rs with
  | nil => rfl
  | cons r t ih => cases hr : p r <;> simp [List.filter_cons, hr] <;> omega

/-- A left fold accumulating `f` over a list equals the sum of the mapped list. -/
lemma foldl_add_eq_sum_map (f : ChunkResult → Nat) (l : List ChunkResult) :
    ∀ a : Nat, l.foldl (fun acc r => acc + f r) a = a + (l.map f).sum := by
  induction l with
  | nil => simp
  | cons r t ih => intro a; simp only [List.foldl_cons, List.map_cons, List.sum_cons, ih]; omega

/-- The successful-chunk filter is empty exactly when every result failed. -/
lemma filter_success_isEmpty_iff (rs : List ChunkResult) :
    (rs.filter (fun r => r.success)).isEmpty = true ↔ ∀ r ∈ rs, r.success = false := by
  rw [List.isEmpty_iff, List.filter_eq_nil_iff]
  simp

/-- A string with a non-empty left component is non-empty. -/
lemma append_ne_empty_left (s t : String) (hs : s ≠ "") : s ++ t ≠ "" := by
  intro h
  apply hs
  have hd := congrArg String.data h
  rw [String.data_append] at hd
  rcases List.append_eq_nil.mp hd with ⟨h1, _⟩
  cases s
  simp_all

/-- `replTriple` passes over a non-newline head character unchanged. -/
lemma replTriple_cons_of_ne (c : Char) (hc : c ≠ '\n') (t : List Char) :
    replTriple (c :: t) = c :: replTriple t := by
  rcases t with _ | ⟨c2, t2⟩
  · simp [replTriple]
  · rcases t2 with _ | ⟨c3, rest⟩
    · simp [replTriple]
    · simp [replTriple, hc]

/-- A single replacement pass shortens a maximal run of `n` newlines (bounded
on the right by a non-newline character) to `n - n / 3` newlines. -/
lemma replTriple_run (b : Char) (hb : b ≠ '\n') :
    ∀ n : Nat, replTriple (List.replicate n '\n' ++ [b])
      = List.replicate (n - n / 3) '\n' ++ [b] := by
  intro n
  induction n using Nat.strong_induction_on with
  | _ n ih =>
    rcases n with _ | n1
    · simp [replTriple]
    · rcases n1 with _ | n2
      · simp [replTriple, List.replicate_succ, hb]
      · rcases n2 with _ | m
        · simp [replTriple, List.replicate_succ, hb]
        · have hdiv : (m + 3) - (m + 3) / 3 = (m - m / 3) + 2 := by omega
          have hstep : replTriple (List.replicate (m + 3) '\n' ++ [b])
              = '\n' :: '\n' :: replTriple (List.replicate m '\n' ++ [b]) := by
            simp [List.replicate_succ, replTriple]
          show replTriple (List.replicate (m + 3) '\n' ++ [b])
              = List.replicate ((m + 3) - (m + 3) / 3) '\n' ++ [b]
          rw [hstep, ih m (by omega), hdiv, List.replicate_succ, List.replicate_succ]
          simp

/-- Every return path of the worker copies the chunk's window into the result. -/
lemma transcribe_chunk_times (b : RemoteBehavior) (c : Chunk) (i : Nat) :
    (transcribe_chunk b c i).1.start_time = c.start_ms ∧
    (transcribe_chunk b c i).1.end_time = c.end_ms := by
  cases b with
  | uploadError m => simp [transcribe_chunk, transcribeChunkBody]
  | failedState => simp [transcribe_chunk, transcribeChunkBody]
  | generateError m => simp [transcribe_chunk, transcribeChunkBody]
  | deleteError m => simp [transcribe_chunk, transcribeChunkBody]
  | response text elapsed =>
    by_cases ht : text = "" <;> simp [transcribe_chunk, transcribeChunkBody, ht]

/-- Quotient of a value in `[1, C]` shifted by `C - 1` is exactly 1. -/
lemma div_shift_eq_one (C m : Nat) (hC : 0 < C) (h1 : 1 ≤ m) (h2 : m ≤ C) :
    (m + (C - 1)) / C = 1 := by
  have hle : 1 ≤ (m + (C - 1)) / C := (Nat.le_div_iff_mul_le hC).mpr (by omega)
  have hlt : (m + (C - 1)) / C < 2 := (Nat.div_lt_iff_lt_mul hC).mpr (by omega)
  omega

/-- Invariant of the chunking loop: starting strictly inside the source, the
emitted windows are contiguous from `chunk_start`, end exactly at `D`, number
`ceil((D - chunk_start) / C)`, and each is non-empty and at most `C` long. -/
lemma splitLoop_spec (C D : Nat) (t : String) (hC : 0 < C) :
    ∀ (k s n : Nat), D - s = k → s < D →
      contiguousFrom s (splitLoop C D t s n) = true ∧
      lastEnd s (splitLoop C D t s n) = D ∧
      (splitLoop C D t s n).length = (D - s + (C - 1)) / C ∧
      ∀ c ∈ splitLoop C D t s n, c.start_ms < c.end_ms ∧ c.end_ms - c.start_ms ≤ C := by
  intro k
  induction k using Nat.strong_induction_on with
  | _ k ih =>
    intro s n hk hs
    rw [splitLoop, dif_pos ⟨hC, hs⟩]
    by_cases hlast : s + C < D
    · have he : min (s + C) D = s + C := by omega
      rw [he]
      obtain ⟨ih1, ih2, ih3, ih4⟩ :=
        ih (D - (s + C)) (by omega) (s + C) (n + 1) rfl (by omega)
      refine ⟨?_, ?_, ?_, ?_⟩
      · simp [contiguousFrom, ih1]
      · simp [lastEnd, ih2]
      · have harith : D - s + (C - 1) = (D - (s + C) + (C - 1)) + C := by omega
        simp only [List.length_cons, ih3, harith, Nat.add_div_right _ hC]
      · intro c hc
        rcases List.mem_cons.mp hc with hc | hc
        · subst hc; exact ⟨by simpa using hC, by simp⟩
        · exact ih4 c hc
    · have he : min (s + C) D = D := by omega
      rw [he]
      have htail : splitLoop C D t D (n + 1) = [] := by
        rw [splitLoop, dif_neg]
        omega
      rw [htail]
      refine ⟨?_, ?_, ?_, ?_⟩
      · simp [contiguousFrom]
      · simp [lastEnd]
      · simp [div_shift_eq_one C (D - s) hC (by omega) (by omega)]
      · intro c hc
        simp only [List.mem_singleton] at hc
        subst hc
        exact ⟨by simp; omega, by simp; omega⟩

/-- A non-empty successful-chunk filter, from an `any` witness. -/
lemma any_success_filter_not_isEmpty (rs : List ChunkResult)
    (h : rs.any (fun r => r.success) = true) :
    (rs.filter (fun r => r.success)).isEmpty = false := by
  rcases List.any_eq_true.mp h with ⟨r, hr, hs⟩
  cases hfil : (rs.filter (fun r => r.success)).isEmpty
  · rfl
  · exact absurd ((filter_success_isEmpty_iff rs).mp hfil r hr) (by simp [hs])

/-! Concrete inputs used by counterexamples and witnesses. -/

/-- A failed result (empty response) with recorded processing time 5, followed
by a successful result with processing time 3:  completion data for a
two-chunk run where the first chunk's upload produced no transcription. -/
def mixedResults : List ChunkResult :=
  [{ success := false, error := some "No transcription generated for chunk 1",
     transcript := "", start_time := 0, end_time := 100,
     processing_time := some 5, word_count := none },
   { success := true, error := none, transcript := "hello", start_time := 100,
     end_time := 200, processing_time := some 3, word_count := some 1 }]

/-- A single failed chunk result (remote FAILED state). -/
def failedOnly : List ChunkResult :=
  [{ success := false, error := some "Chunk 1 processing failed",
     transcript := "", start_time := 0, end_time := 100,
     processing_time := none, word_count := none }]

/-- The successful results of a two-chunk run listed in reversed completion
order: the chunk covering [100, 200) ms (transcript "B") appears before the
chunk covering [0, 100) ms (transcript "A"). -/
def outOfOrderResults : List ChunkResult :=
  [{ success := true, error := none, transcript := "B", start_time := 100,
     end_time := 200, processing_time := some 1, word_count := some 1 },
   { success := true, error := none, transcript := "A", start_time := 0,
     end_time := 100, processing_time := some 1, word_count := some 1 }]

/-! Claim C1. -/

/-- C1 counterexample: feeding `merge_transcriptions` the two successful
results in reversed completion order yields "B\n\nA", the input-list order,
which differs from "A\n\nB", the concatenation by ascending chunk index
(ascending `start_time`): the merge does not reorder by chunk index. -/
theorem merge_not_index_order_cx :
    (merge_transcriptions outOfOrderResults).transcript = "B\n\nA" ∧
    collapseTriples (joinDouble ["A", "B"]) = "A\n\nB" ∧
    (merge_transcriptions outOfOrderResults).transcript
      ≠ collapseTriples (joinDouble ["A", "B"]) := by
  decide

/-- C1 amended: the merged transcript is the double-newline join (then
triple-newline collapse) of the successful transcripts in the order they
appear in the input list; the ascending-chunk-index order of the final report
comes from the orchestrator loop, which emits one result per chunk in chunk
order, each carrying its chunk's time window. -/
theorem merge_concatenates_in_input_order (rs : List ChunkResult)
    (bs : Nat → RemoteBehavior) (i : Nat) (chunks : List Chunk) :
    (merge_transcriptions rs).transcript
      = collapseTriples (joinDouble ((rs.filter (fun r => r.success)).map (fun r => r.transcript))) ∧
    (runChunks bs i chunks).map (fun r => (r.start_time, r.end_time))
      = chunks.map (fun c => (c.start_ms, c.end_ms)) := by
  constructor
  · by_cases h : (rs.filter (fun r => r.success)).isEmpty
    · have hnil : rs.filter (fun r => r.success) = [] := List.isEmpty_iff.mp h
      simp [merge_transcriptions, h, hnil, joinDouble, collapseTriples, replTriple]
    · simp [merge_transcriptions, h]
  · induction chunks generalizing i with
    | nil => simp [runChunks]
    | cons c rest ih =>
      simp [runChunks, ih, (transcribe_chunk_times (bs i) c i).1,
        (transcribe_chunk_times (bs i) c i).2]

/-! Claim C2. -/

/-- C2 counterexample: when the remote file reaches the FAILED state, the
worker takes the early return of lines 102-109 and never invokes
`genai.delete_file`, so the uploaded remote file handle is not released on
this exit path (and no local temp deletion happens inside the worker either:
local payloads are removed by the orchestrator after all chunks, lines
248-258). -/
theorem delete_file_skipped_on_failed_state_cx :
    (transcribe_chunk RemoteBehavior.failedState
        { path := "tmp/chunk_1.mp3", start_ms := 0, end_ms := 100 } 0).2 = false ∧
    (transcribe_chunk RemoteBehavior.failedState
        { path := "tmp/chunk_1.mp3", start_ms := 0, end_ms := 100 } 0).1.success = false := by
  decide

/-- C2 amended: `delete_file` is invoked exactly on the exit paths that get
past `generate_content` (a returned response — successful or empty — or an
exception raised by `delete_file` itself); it is skipped on the FAILED-state
early return and on exceptions during upload, polling or generation.  Local
temporary payloads are not deleted by the worker at all but by the
orchestrator's post-run cleanup. -/
theorem transcribe_chunk_delete_iff (b : RemoteBehavior) (c : Chunk) (i : Nat) :
    (transcribe_chunk b c i).2 = true ↔
      (∃ m, b = RemoteBehavior.deleteError m) ∨
      ∃ text elapsed, b = RemoteBehavior.response text elapsed := by
  cases b with
  | uploadError m => simp [transcribe_chunk, transcribeChunkBody]
  | failedState => simp [transcribe_chunk, transcribeChunkBody]
  | generateError m => simp [transcribe_chunk, transcribeChunkBody]
  | deleteError m => simp [transcribe_chunk, transcribeChunkBody]
  | response text elapsed =>
    by_cases ht : text = "" <;> simp [transcribe_chunk, transcribeChunkBody, ht]

/-- C2 amended witness: on a successful response the remote handle is
released. -/
theorem transcribe_chunk_delete_iff_witness :
    (transcribe_chunk (RemoteBehavior.response "hello" 2)
        { path := "tmp/chunk_1.mp3", start_ms := 0, end_ms := 100 } 0).2 = true :=
  (transcribe_chunk_delete_iff (RemoteBehavior.response "hello" 2)
      { path := "tmp/chunk_1.mp3", start_ms := 0, end_ms := 100 } 0).mpr
    (Or.inr ⟨"hello", 2, rfl⟩)

/-- Merging a single successful result collapses its own transcript. -/
lemma merge_single_success (r : ChunkResult) (hr : r.success = true) :
    (merge_transcriptions [r]).transcript = collapseTriples r.transcript := by
  simp [merge_transcriptions, List.filter, hr, joinDouble]

/-! Claim C3. -/

/-- C3 counterexample: a single successful chunk whose (stripped) transcript
contains an internal run of four newlines.  The single replacement pass of
`merge_transcriptions` shortens the run to three newlines, so the merged
transcript still contains a run of 3 or more consecutive line breaks. -/
theorem merge_leaves_triple_newline_cx :
    (merge_transcriptions
        [{ success := true, error := none, transcript := "a\n\n\n\nb",
           start_time := 0, end_time := 100, processing_time := some 1,
           word_count := some 2 }]).transcript = "a\n\n\nb" ∧
    hasTripleNL (merge_transcriptions
        [{ success := true, error := none, transcript := "a\n\n\n\nb",
           start_time := 0, end_time := 100, processing_time := some 1,
           word_count := some 2 }]).transcript.data = true := by
  decide

/-- C3 amended: the collapse is a single left-to-right non-overlapping
replacement of triple newlines by double newlines, so a maximal run of `n`
line breaks (delimited by non-newline characters) in the joined text is
shortened to `n - n / 3` line breaks: exactly 2 when `n = 3`, but still 3 or
more for `n ≥ 4` (with larger runs shortened by one newline per full
triple). -/
theorem merge_newline_run_collapse (n : Nat) (a b : Char)
    (ha : a ≠ '\n') (hb : b ≠ '\n') (s e : Nat) :
    (merge_transcriptions
        [{ success := true, error := none,
           transcript := String.mk (a :: (List.replicate n '\n' ++ [b])),
           start_time := s, end_time := e, processing_time := some 0,
           word_count := some 0 }]).transcript
      = String.mk (a :: (List.replicate (n - n / 3) '\n' ++ [b])) := by
  rw [merge_single_success _ rfl]
  simp [collapseTriples, replTriple_cons_of_ne a ha, replTriple_run b hb n]

/-- C3 amended witness: a run of 4 newlines collapses to 3, not 2. -/
theorem merge_newline_run_collapse_witness :
    ('a' : Char) ≠ '\n' ∧ ('b' : Char) ≠ '\n' ∧
    (merge_transcriptions
        [{ success := true, error := none,
           transcript := String.mk ('a' :: (List.replicate 4 '\n' ++ ['b'])),
           start_time := 0, end_time := 1, processing_time := some 0,
           word_count := some 0 }]).transcript
      = String.mk ('a' :: (List.replicate (4 - 4 / 3) '\n' ++ ['b'])) :=
  ⟨by decide, by decide, merge_newline_run_collapse 4 'a' 'b' (by decide) (by decide) 0 1⟩

/-! Claim C4. -/

/-- C4 counterexample: in a run where the failed chunk recorded 5 time units
of work (the empty-response path does record `processing_time`) and the
successful chunk recorded 3, `merge_transcriptions` reports
`total_processing_time = 3`: the sum over all chunks in the list would be 8,
so the report does not equal the sum over all chunks. -/
theorem merge_time_ignores_failed_chunks_cx :
    (merge_transcriptions mixedResults).total_processing_time = some 3 ∧
    (mixedResults.map (fun r => r.processing_time.getD 0)).sum = 8 ∧
    (merge_transcriptions mixedResults).total_processing_time
      ≠ some ((mixedResults.map (fun r => r.processing_time.getD 0)).sum) := by
  decide

/-- C4 amended: `total_processing_time` in the merge report is the sum of the
recorded processing times of the *successful* chunks only (failed chunks'
recorded times are excluded; an absent `processing_time` key counts as 0),
and the field is present only when at least one chunk succeeded.  (The
orchestrator then overwrites this field with its wall-clock time, line 262.) -/
theorem merge_total_time_sums_successful (rs : List ChunkResult)
    (h : rs.any (fun r => r.success) = true) :
    (merge_transcriptions rs).total_processing_time
      = some (((rs.filter (fun r => r.success)).map (fun r => r.processing_time.getD 0)).sum) := by
  have hne := any_success_filter_not_isEmpty rs h
  simp [merge_transcriptions, hne, foldl_add_eq_sum_map]

/-- C4 amended witness: evaluated on the mixed two-chunk run. -/
theorem merge_total_time_sums_successful_witness :
    mixedResults.any (fun r => r.success) = true ∧
    (merge_transcriptions mixedResults).total_processing_time
      = some (((mixedResults.filter (fun r => r.success)).map (fun r => r.processing_time.getD 0)).sum) :=
  ⟨by decide, merge_total_time_sums_successful mixedResults (by decide)⟩

/-! Claim C5. -/

/-- C5 counterexample: on an all-failure list the early return of
`merge_transcriptions` (lines 177-183) omits the `total_chunks`,
`successful_chunks` and `failed_chunks` keys entirely, so the report does not
contain `total_chunks` equal to the input length. -/
theorem merge_all_failure_omits_counts_cx :
    (merge_transcriptions failedOnly).total_chunks = none ∧
    (merge_transcriptions failedOnly).successful_chunks = none ∧
    (merge_transcriptions failedOnly).failed_chunks = none ∧
    (merge_transcriptions failedOnly).total_chunks ≠ some failedOnly.length := by
  decide

/-- C5 amended: whenever at least one chunk succeeded, the merge report
carries `total_chunks` equal to the input length and successful/failed counts
that partition it; in the all-failure case those keys are absent from the
report. -/
theorem merge_counts_partition (rs : List ChunkResult)
    (h : rs.any (fun r => r.success) = true) :
    (merge_transcriptions rs).total_chunks = some rs.length ∧
    (merge_transcriptions rs).successful_chunks = some (rs.filter (fun r => r.success)).length ∧
    (merge_transcriptions rs).failed_chunks = some (rs.filter (fun r => !r.success)).length ∧
    (rs.filter (fun r => r.success)).length + (rs.filter (fun r => !r.success)).length
      = rs.length := by
  have hne := any_success_filter_not_isEmpty rs h
  refine ⟨?_, ?_, ?_, length_filter_add_length_filter_not rs _⟩ <;>
    simp [merge_transcriptions, hne]

/-- C5 amended witness: evaluated on the mixed two-chunk run. -/
theorem merge_counts_partition_witness :
    mixedResults.any (fun r => r.success) = true ∧
    (merge_transcriptions mixedResults).total_chunks = some mixedResults.length ∧
    (merge_transcriptions mixedResults).successful_chunks
      = some (mixedResults.filter (fun r => r.success)).length ∧
    (merge_transcriptions mixedResults).failed_chunks
      = some (mixedResults.filter (fun r => !r.success)).length :=
  ⟨by decide, (merge_counts_partition mixedResults (by decide)).1,
    (merge_counts_partition mixedResults (by decide)).2.1,
    (merge_counts_partition mixedResults (by decide)).2.2.1⟩

/-! Claim C6. -/

/-- C6: the merge report has `success = true` exactly when at least one input
result succeeded; an all-failure list (the empty list included) yields
`success = false` and an empty merged transcript. -/
theorem merge_success_iff_some_chunk (rs : List ChunkResult) :
    ((merge_transcriptions rs).success = true ↔ ∃ r ∈ rs, r.success = true) ∧
    ((∀ r ∈ rs, r.success = false) →
      (merge_transcriptions rs).success = false ∧
      (merge_transcriptions rs).transcript = "") := by
  by_cases h : (rs.filter (fun r => r.success)).isEmpty
  · have hall := (filter_success_isEmpty_iff rs).mp h
    constructor
    · simp only [merge_transcriptions, h]
      simp only [if_true]
      constructor
      · intro hfalse
        exact absurd hfalse (by simp)
      · rintro ⟨r, hr, hs⟩
        exact absurd (hall r hr) (by simp [hs])
    · intro _
      constructor <;> simp [merge_transcriptions, h]
  · have hex : ∃ r ∈ rs, r.success = true := by simpa using h
    constructor
    · simp only [merge_transcriptions, h]
      simp [hex]
    · intro hall
      rcases hex with ⟨r, hr, hs⟩
      exact absurd (hall r hr) (by simp [hs])

/-- C6 witness: on the all-failure singleton list the second part applies. -/
theorem merge_success_iff_some_chunk_witness :
    (∀ r ∈ failedOnly, r.success = false) ∧
    (merge_transcriptions failedOnly).success = false ∧
    (merge_transcriptions failedOnly).transcript = "" :=
  ⟨by decide, (merge_success_iff_some_chunk failedOnly).2 (by decide)⟩

/-! Claim C7. -/

/-- C7: the worker is total over every remote behaviour.  Any exception
raised inside the `try` body is converted by the handler into a failure
`ChunkResult` carrying the reason (never re-raised); the result is a success
exactly when the remote returned a non-empty response; and the orchestrator
loop produces one result per chunk whatever the behaviours are, so a bad
chunk never aborts the run. -/
theorem transcribe_chunk_never_raises (b : RemoteBehavior) (c : Chunk) (i : Nat) :
    (∀ e, (transcribeChunkBody b c i).1 = Except.error e →
      (transcribe_chunk b c i).1 =
        { success := false
          error := some ("Chunk " ++ toString (i + 1) ++ " error: " ++ e)
          transcript := ""
          start_time := c.start_ms
          end_time := c.end_ms
          processing_time := some 0
          word_count := none }) ∧
    ((transcribe_chunk b c i).1.success = true ↔
      ∃ text elapsed, b = RemoteBehavior.response text elapsed ∧ text ≠ "") ∧
    (∀ (bs : Nat → RemoteBehavior) (j : Nat) (cs : List Chunk),
      (runChunks bs j cs).length = cs.length) := by
  refine ⟨?_, ?_, ?_⟩
  · intro e he
    cases b with
    | uploadError m =>
      simp only [transcribeChunkBody, Except.error.injEq] at he
      simp [transcribe_chunk, transcribeChunkBody, he]
    | failedState => simp [transcribeChunkBody] at he
    | generateError m =>
      simp only [transcribeChunkBody, Except.error.injEq] at he
      simp [transcribe_chunk, transcribeChunkBody, he]
    | deleteError m =>
      simp only [transcribeChunkBody, Except.error.injEq] at he
      simp [transcribe_chunk, transcribeChunkBody, he]
    | response text elapsed =>
      by_cases ht : text = "" <;> simp [transcribeChunkBody, ht] at he
  · cases b with
    | uploadError m => simp [transcribe_chunk, transcribeChunkBody]
    | failedState => simp [transcribe_chunk, transcribeChunkBody]
    | generateError m => simp [transcribe_chunk, transcribeChunkBody]
    | deleteError m => simp [transcribe_chunk, transcribeChunkBody]
    | response text elapsed =>
      by_cases ht : text = ""
      · subst ht
        simp [transcribe_chunk, transcribeChunkBody]
      · simp [transcribe_chunk, transcribeChunkBody, ht]
  · intro bs j cs
    induction cs generalizing j with
    | nil => simp [runChunks]
    | cons c rest ih => simp [runChunks, ih]

/-- C7 witness: an upload exception is captured as a failure result. -/
theorem transcribe_chunk_never_raises_witness :
    (transcribeChunkBody (RemoteBehavior.uploadError "boom")
        { path := "tmp/chunk_1.mp3", start_ms := 0, end_ms := 100 } 0).1
      = Except.error "boom" ∧
    (transcribe_chunk (RemoteBehavior.uploadError "boom")
        { path := "tmp/chunk_1.mp3", start_ms := 0, end_ms := 100 } 0).1 =
      { success := false
        error := some ("Chunk " ++ toString (0 + 1) ++ " error: " ++ "boom")
        transcript := ""
        start_time := 0
        end_time := 100
        processing_time := some 0
        word_count := none } :=
  ⟨rfl, (transcribe_chunk_never_raises (RemoteBehavior.uploadError "boom")
      { path := "tmp/chunk_1.mp3", start_ms := 0, end_ms := 100 } 0).1 "boom" rfl⟩

/-! Claim C8. -/

/-- C8: for a positive source duration `D` and positive chunk length `C`,
`split_audio` yields `ceil(D / C)` chunks (`(D + (C-1)) / C` in natural
division) — exactly one, referencing the original file, when `D ≤ C` — whose
windows are contiguous, start at 0, end exactly at `D`, and are each
non-empty and at most `C` long (only the final window may be shorter). -/
theorem split_audio_partition (C D : Nat) (p t : String) (hC : 0 < C) (hD : 0 < D) :
    (split_audio C p t D).length = (D + (C - 1)) / C ∧
    (D ≤ C → split_audio C p t D = [{ path := p, start_ms := 0, end_ms := D }]) ∧
    contiguousFrom 0 (split_audio C p t D) = true ∧
    lastEnd 0 (split_audio C p t D) = D ∧
    ∀ c ∈ split_audio C p t D, c.start_ms < c.end_ms ∧ c.end_ms - c.start_ms ≤ C := by
  by_cases hDC : D ≤ C
  · rw [split_audio, if_pos hDC]
    refine ⟨?_, fun _ => rfl, ?_, ?_, ?_⟩
    · simp [div_shift_eq_one C D hC hD hDC]
    · simp [contiguousFrom]
    · simp [lastEnd]
    · intro c hc
      simp only [List.mem_singleton] at hc
      subst hc
      exact ⟨by simpa using hD, by simpa using hDC⟩
  · rw [split_audio, if_neg hDC]
    obtain ⟨h1, h2, h3, h4⟩ := splitLoop_spec C D t hC (D - 0) 0 1 rfl (by omega)
    exact ⟨by simpa using h3, fun h => absurd h hDC, h1, h2, h4⟩

/-- C8 witness: a 7 ms source with 3 ms chunks gives ceil(7/3) = 3 contiguous
chunks covering [0, 7). -/
theorem split_audio_partition_witness :
    0 < 3 ∧ 0 < 7 ∧
    (split_audio 3 "orig.mp3" "tmpdir" 7).length = (7 + (3 - 1)) / 3 ∧
    contiguousFrom 0 (split_audio 3 "orig.mp3" "tmpdir" 7) = true ∧
    lastEnd 0 (split_audio 3 "orig.mp3" "tmpdir" 7) = 7 :=
  ⟨by decide, by decide,
    (split_audio_partition 3 7 "orig.mp3" "tmpdir" (by decide) (by decide)).1,
    (split_audio_partition 3 7 "orig.mp3" "tmpdir" (by decide) (by decide)).2.2.1,
    (split_audio_partition 3 7 "orig.mp3" "tmpdir" (by decide) (by decide)).2.2.2.1⟩

/-! Claim C9. -/

/-- C9: every result the worker can produce satisfies the `ChunkResult`
invariant: a failed result has an empty transcript and a non-empty error
message, and a successful result has no error. -/
theorem transcribe_chunk_result_invariant (b : RemoteBehavior) (c : Chunk) (i : Nat) :
    resultInvariant (transcribe_chunk b c i).1 = true := by
  have hch : ("Chunk " ++ toString (i + 1) ++ " processing failed" : String) ≠ "" := by
    apply append_ne_empty_left
    apply append_ne_empty_left
    decide
  have hno : ("No transcription generated for chunk " ++ toString (i + 1) : String) ≠ "" := by
    apply append_ne_empty_left
    decide
  cases b with
  | uploadError m =>
    have herr : ("Chunk " ++ toString (i + 1) ++ " error: " ++ m : String) ≠ "" := by
      apply append_ne_empty_left
      apply append_ne_empty_left
      apply append_ne_empty_left
      decide
    simp [transcribe_chunk, transcribeChunkBody, resultInvariant, herr]
  | failedState => simp [transcribe_chunk, transcribeChunkBody, resultInvariant, hch]
  | generateError m =>
    have herr : ("Chunk " ++ toString (i + 1) ++ " error: " ++ m : String) ≠ "" := by
      apply append_ne_empty_left
      apply append_ne_empty_left
      apply append_ne_empty_left
      decide
    simp [transcribe_chunk, transcribeChunkBody, resultInvariant, herr]
  | deleteError m =>
    have herr : ("Chunk " ++ toString (i + 1) ++ " error: " ++ m : String) ≠ "" := by
      apply append_ne_empty_left
      apply append_ne_empty_left
      apply append_ne_empty_left
      decide
    simp [transcribe_chunk, transcribeChunkBody, resultInvariant, herr]
  | response text elapsed =>
    by_cases ht : text = ""
    · subst ht
      simp [transcribe_chunk, transcribeChunkBody, resultInvariant, hno]
    · simp [transcribe_chunk, transcribeChunkBody, resultInvariant, ht]

/-! Claim C10. -/

/-- C10: the pipeline never deletes the original input file: in the
single-chunk case `split_audio` hands back the original path as the chunk
payload, the orchestrator's cleanup list never contains the source path
(every deleted path belongs to a chunk whose path differs from the source),
and in the single-chunk case nothing is deleted at all. -/
theorem original_file_never_deleted (bs : Nat → RemoteBehavior)
    (p t : String) (C D w : Nat) :
    (D ≤ C → split_audio C p t D = [{ path := p, start_ms := 0, end_ms := D }]) ∧
    p ∉ (transcribe_long_audio bs p t C D w).2 ∧
    (D ≤ C → (transcribe_long_audio bs p t C D w).2 = []) := by
  refine ⟨fun h => by rw [split_audio, if_pos h], ?_, fun h => ?_⟩
  · simp only [transcribe_long_audio]
    intro hmem
    simp only [List.mem_map, List.mem_filter] at hmem
    obtain ⟨c, ⟨_, hne⟩, hpath⟩ := hmem
    simp only [bne_iff_ne, ne_eq] at hne
    exact hne hpath
  · simp [transcribe_long_audio, split_audio, if_pos h, List.filter]

/-- C10 witness: a 3 ms source with 5 ms chunks keeps the original file as
payload and the post-run cleanup deletes nothing. -/
theorem original_file_never_deleted_witness :
    (3 : Nat) ≤ 5 ∧
    split_audio 5 "orig.mp3" "tmpdir" 3 = [{ path := "orig.mp3", start_ms := 0, end_ms := 3 }] ∧
    "orig.mp3" ∉ (transcribe_long_audio (fun _ => RemoteBehavior.failedState)
      "orig.mp3" "tmpdir" 5 3 9).2 ∧
    (transcribe_long_audio (fun _ => RemoteBehavior.failedState)
      "orig.mp3" "tmpdir" 5 3 9).2 = [] :=
  ⟨by decide,
    (original_file_never_deleted (fun _ => RemoteBehavior.failedState)
      "orig.mp3" "tmpdir" 5 3 9).1 (by decide),
    (original_file_never_deleted (fun _ => RemoteBehavior.failedState)
      "orig.mp3" "tmpdir" 5 3 9).2.1,
    (original_file_never_deleted (fun _ => RemoteBehavior.failedState)
      "orig.mp3" "tmpdir" 5 3 9).2.2 (by decide)⟩
